import Mathlib

/-!
Verification of `HtmlLengthService`
(`core/templates/services/html-length.service.ts`).

The service computes an estimated reading length for an HTML string.  We
shallowly embed it as follows.

* JavaScript strings are modelled as `List Char`.  `String.prototype.trim`
  becomes `jsTrim`, `String.prototype.split(' ')` becomes
  `List.splitOn ' '` (both agree with the JS semantics: splitting the
  empty string yields one empty token, consecutive separators yield empty
  tokens), `toLowerCase` becomes `toLower`, and `===` on strings is list
  equality.
* The DOM produced by the external sanitizer/parser collaborators is
  modelled by the tree type `Node`; `textContent` concatenates the text
  of all descendants in document order, and
  `dom.body.querySelectorAll('p,ul,ol,...')` becomes a pre-order
  collection of the body's descendant elements whose lower-cased tag name
  occurs in the selector list (CSS type selectors match tag names
  case-insensitively in HTML documents).
* The collaborators themselves (Angular's `DomSanitizer.sanitize` and
  `DOMParser.parseFromString` composed with `.body`) are parameters
  `sanitize : List Char → List Char` and `parse : List Char → Node`; the
  claims quantify over them or instantiate them with the tree the real
  parser produces for a concrete input.
* The `LoggerService.error` collaborator is modelled by returning the
  list of logged messages alongside the numeric result.
* JavaScript numbers are integers here (`Int`): every value the service
  computes is an integer (lengths, word counts, table weights, sums).
* The table lookups `this.textTagsWithWeight.find(...)` /
  `this.nonTextTagsWithWeight.find(...)` dereference the found entry with
  `[1]`; when `find` returns `undefined` this throws a `TypeError`.  We
  model the helpers with `Option Int`, `none` standing for that throw,
  and the throw aborting the enclosing call (the fold propagates `none`).
-/

/-- JavaScript `toLowerCase` on a string (ASCII case mapping suffices for
the tag names involved). -/
def toLower (s : List Char) : List Char :=
  s.map Char.toLower

/-- JavaScript `String.prototype.trim`: remove leading and trailing
whitespace. -/
def jsTrim (s : List Char) : List Char :=
  ((s.dropWhile Char.isWhitespace).reverse.dropWhile Char.isWhitespace).reverse

/-- A node of the parsed DOM: an element with a tag name and child nodes,
or a text node. -/
inductive Node where
  | element : List Char → List Node → Node
  | text : List Char → Node

/-- `Element.tagName` (only ever read on element nodes; a text node gets a
dummy empty name). -/
def Node.tagName : Node → List Char
  | .element t _ => t
  | .text _ => []

mutual

/-- `Node.textContent`: the concatenation, in document order, of the text
of all descendant text nodes. -/
def Node.textContent : Node → List Char
  | .text s => s
  | .element _ cs => textContentOfList cs

/-- `textContent` of a list of sibling nodes. -/
def textContentOfList : List Node → List Char
  | [] => []
  | n :: ns => n.textContent ++ textContentOfList ns

end

mutual

/-- Elements selected by a CSS type-selector group from a node and its
descendants, in document order (pre-order): the node itself when its
lower-cased tag name is listed, then the matches among its descendants. -/
def selectFromNode (sel : List (List Char)) : Node → List Node
  | .text _ => []
  | .element t cs =>
      (if toLower t ∈ sel then [Node.element t cs] else []) ++ selectFromList sel cs

/-- Selected elements of a list of sibling subtrees, in document order. -/
def selectFromList (sel : List (List Char)) : List Node → List Node
  | [] => []
  | n :: ns => selectFromNode sel n ++ selectFromList sel ns

end

/-- `dom.body.querySelectorAll(sel)`: all descendant elements of the body
matching the selector group, in document order (the body itself is not a
candidate). -/
def querySelectorAll (sel : List (List Char)) : Node → List Node
  | .text _ => []
  | .element _ cs => selectFromList sel cs

/-- The selector string of line 66,
`'p,ul,ol,oppia-noninteractive-image,oppia-noninteractive-math'`, as the
list of its comma-separated type selectors. -/
def selectorTags : List (List Char) :=
  [("p").data, ("ul").data, ("ol").data,
   ("oppia-noninteractive-image").data, ("oppia-noninteractive-math").data]

/-- The state of an `HtmlLengthService` instance: its two weight-table
fields. -/
structure HtmlLengthService where
  nonTextTagsWithWeight : List (List Char × Int)
  textTagsWithWeight : List (List Char × Int)
deriving DecidableEq

/-- A freshly constructed service: the initial values of the two fields
(lines 36-53 of the source). -/
def HtmlLengthService.new : HtmlLengthService where
  nonTextTagsWithWeight :=
    [(("oppia-noninteractive-math").data, 0),
     (("oppia-noninteractive-image").data, 0)]
  textTagsWithWeight :=
    [(("a").data, 1),
     (("collapsible").data, 1000),
     (("p").data, 1),
     (("ul").data, 1),
     (("ol").data, 1)]

/-- The message passed to `loggerService.error` on empty input (line 57). -/
def emptyInputMessage : List Char :=
  ("Empty string was passed to compute length").data

/-- `getWeightForTextNodes` (lines 80-91).  Reads `textContent`, trims and
splits it on single spaces, special-cases the `a` tag to the (untrimmed)
character length of the text content, and otherwise multiplies the word
count by the weight found in `textTagsWithWeight`.  `none` models the
`TypeError` thrown when `find` returns `undefined` and `[1]` is taken. -/
def HtmlLengthService.getWeightForTextNodes
    (svc : HtmlLengthService) (textNode : Node) : Option Int :=
  let textContent := textNode.textContent
  let words := (jsTrim textContent).splitOn ' '
  let wordCount := words.length
  let ltag := toLower textNode.tagName
  if ltag = ("a").data then
    some (textContent.length : Int)
  else
    match svc.textTagsWithWeight.find? (fun x => decide (x.1 = ltag)) with
    | some x => some ((wordCount : Int) * x.2)
    | none => none

/-- `getWeightForNonTextNodes` (lines 93-98): the fixed weight found for
the lower-cased tag name in `nonTextTagsWithWeight`; `none` models the
`TypeError` on a missed lookup. -/
def HtmlLengthService.getWeightForNonTextNodes
    (svc : HtmlLengthService) (nonTextNode : Node) : Option Int :=
  let ltag := toLower nonTextNode.tagName
  match svc.nonTextTagsWithWeight.find? (fun x => decide (x.1 = ltag)) with
  | some x => some x.2
  | none => none

/-- One iteration of the loop of lines 68-75: lower-case the tag name,
and when it occurs in `textTagsWithWeight` (resp.
`nonTextTagsWithWeight`) add the corresponding helper's weight to the
accumulator.  A `none` (thrown `TypeError`) aborts the call. -/
def HtmlLengthService.loopStep
    (svc : HtmlLengthService) (acc : Option Int) (tag : Node) : Option Int :=
  match acc with
  | none => none
  | some totalWeight =>
      let ltag := toLower tag.tagName
      let afterText :=
        if svc.textTagsWithWeight.any (fun item => decide (item.1 = ltag)) then
          match svc.getWeightForTextNodes tag with
          | some w => some (totalWeight + w)
          | none => none
        else some totalWeight
      match afterText with
      | none => none
      | some totalWeight2 =>
          if svc.nonTextTagsWithWeight.any (fun item => decide (item.1 = ltag)) then
            match svc.getWeightForNonTextNodes tag with
            | some w => some (totalWeight2 + w)
            | none => none
          else some totalWeight2

/-- `computeHtmlLengthInWords` (lines 55-78).  `sanitize` and `parse`
stand for the external `DomSanitizer` and for
`DOMParser.parseFromString(·, 'text/html').body`.  The result pairs the
returned number with the list of messages logged through
`loggerService.error`; `none` models an uncaught `TypeError` from a
missed table lookup. -/
def HtmlLengthService.computeHtmlLengthInWords
    (svc : HtmlLengthService) (sanitize : List Char → List Char)
    (parse : List Char → Node) (htmlString : List Char) :
    Option (Int × List (List Char)) :=
  if htmlString = [] then
    some (0, [emptyInputMessage])
  else
    let sanitizedHtml := sanitize htmlString
    let body := parse sanitizedHtml
    let tagList := querySelectorAll selectorTags body
    match tagList.foldl svc.loopStep (some 0) with
    | some totalWeight => some (totalWeight, [])
    | none => none

/-- A method call on the service, seen with its state: the result of
`computeHtmlLengthInWords` together with the service's fields after the
call.  The method body contains no assignment to `this`, so the fields
after the call are the fields before it. -/
def HtmlLengthService.computeCall
    (svc : HtmlLengthService) (sanitize : List Char → List Char)
    (parse : List Char → Node) (htmlString : List Char) :
    Option (Int × List (List Char)) × HtmlLengthService :=
  (svc.computeHtmlLengthInWords sanitize parse htmlString, svc)

/-- Whether a node is a text node (used to say a subtree holds no further
elements). -/
def Node.isText : Node → Bool
  | .text _ => true
  | .element _ _ => false

/-- If `any` finds a satisfying element, `find?` succeeds on the same
predicate over the same list: the guards of lines 70 and 73 protect the
lookups of lines 88 and 95. -/
theorem find?_isSome_of_any {α : Type} (p : α → Bool) (l : List α)
    (h : l.any p = true) : ∃ x, l.find? p = some x := by
  have hs : (l.find? p).isSome := by
    rw [List.find?_isSome]
    rcases List.any_eq_true.mp h with ⟨x, hx, hpx⟩
    exact ⟨x, hx, hpx⟩
  exact Option.isSome_iff_exists.mp hs

/-- Under the guard of line 70, `getWeightForTextNodes` does not hit the
missed-lookup branch. -/
theorem getWeightForTextNodes_isSome (svc : HtmlLengthService) (node : Node)
    (h : svc.textTagsWithWeight.any
      (fun item => decide (item.1 = toLower node.tagName)) = true) :
    ∃ w, svc.getWeightForTextNodes node = some w := by
  rw [← Option.isSome_iff_exists]
  unfold HtmlLengthService.getWeightForTextNodes
  by_cases ha : toLower node.tagName = ("a").data
  · simp [ha]
  · rcases find?_isSome_of_any _ _ h with ⟨x, hx⟩
    simp [ha, hx]

/-- Under the guard of line 73, `getWeightForNonTextNodes` does not hit
the missed-lookup branch. -/
theorem getWeightForNonTextNodes_isSome (svc : HtmlLengthService) (node : Node)
    (h : svc.nonTextTagsWithWeight.any
      (fun item => decide (item.1 = toLower node.tagName)) = true) :
    ∃ w, svc.getWeightForNonTextNodes node = some w := by
  rw [← Option.isSome_iff_exists]
  unfold HtmlLengthService.getWeightForNonTextNodes
  rcases find?_isSome_of_any _ _ h with ⟨x, hx⟩
  simp [hx]

/-- One loop iteration started on a live accumulator never throws. -/
theorem loopStep_some (svc : HtmlLengthService) (total : Int) (tag : Node) :
    ∃ v, svc.loopStep (some total) tag = some v := by
  rw [← Option.isSome_iff_exists]
  unfold HtmlLengthService.loopStep
  by_cases h1 : svc.textTagsWithWeight.any
      (fun item => decide (item.1 = toLower tag.tagName)) = true
  · rcases getWeightForTextNodes_isSome svc tag h1 with ⟨w1, hw1⟩
    by_cases h2 : svc.nonTextTagsWithWeight.any
        (fun item => decide (item.1 = toLower tag.tagName)) = true
    · rcases getWeightForNonTextNodes_isSome svc tag h2 with ⟨w2, hw2⟩
      simp [h1, h2, hw1, hw2]
    · simp [h1, h2, hw1]
  · by_cases h2 : svc.nonTextTagsWithWeight.any
        (fun item => decide (item.1 = toLower tag.tagName)) = true
    · rcases getWeightForNonTextNodes_isSome svc tag h2 with ⟨w2, hw2⟩
      simp [h1, h2, hw2]
    · simp [h1, h2]

/-- A thrown iteration aborts the rest of the loop. -/
theorem foldl_loopStep_none (svc : HtmlLengthService) (l : List Node) :
    l.foldl svc.loopStep none = none := by
  induction l with
  | nil => rfl
  | cons hd tl ih => simpa [HtmlLengthService.loopStep] using ih

/-- The whole loop started on a live accumulator never throws. -/
theorem foldl_loopStep_some (svc : HtmlLengthService) (l : List Node) :
    ∀ total : Int, ∃ v, l.foldl svc.loopStep (some total) = some v := by
  induction l with
  | nil => exact fun total => ⟨total, rfl⟩
  | cons hd tl ih =>
      intro total
      rcases loopStep_some svc total hd with ⟨v, hv⟩
      rcases ih v with ⟨v2, hv2⟩
      exact ⟨v2, by simpa [hv] using hv2⟩

/-- Shape of every result of `computeHtmlLengthInWords`: the call returns
(it never hits a missed lookup), logs exactly the one empty-input message
on empty input, and logs nothing otherwise. -/
theorem computeHtmlLengthInWords_total (svc : HtmlLengthService)
    (sanitize : List Char → List Char) (parse : List Char → Node)
    (s : List Char) :
    (s = [] → svc.computeHtmlLengthInWords sanitize parse s
      = some (0, [emptyInputMessage]))
    ∧ (s ≠ [] → ∃ w, svc.computeHtmlLengthInWords sanitize parse s
      = some (w, [])) := by
  constructor
  · intro hs
    simp [HtmlLengthService.computeHtmlLengthInWords, hs]
  · intro hs
    rcases foldl_loopStep_some svc
      (querySelectorAll selectorTags (parse (sanitize s))) 0 with ⟨w, hw⟩
    exact ⟨w, by simp [HtmlLengthService.computeHtmlLengthInWords, hs, hw]⟩

/-- A list of sibling subtrees consisting of text nodes only contains no
selectable element. -/
theorem selectFromList_eq_nil (sel : List (List Char)) (ns : List Node)
    (h : ∀ n ∈ ns, n.isText = true) : selectFromList sel ns = [] := by
  induction ns with
  | nil => simp [selectFromList]
  | cons hd tl ih =>
      have hhd := h hd (List.mem_cons_self hd tl)
      cases hd with
      | text s =>
          simp [selectFromList, selectFromNode,
            ih (fun n hn => h n (List.mem_cons_of_mem _ hn))]
      | element t cs => simp [Node.isText] at hhd

/-- Unfolding of the selection over a sibling list headed by an element. -/
theorem selectFromList_cons_element (sel : List (List Char)) (t : List Char)
    (cs rest : List Node) :
    selectFromList sel (Node.element t cs :: rest)
      = (if toLower t ∈ sel then [Node.element t cs] else [])
        ++ (selectFromList sel cs ++ selectFromList sel rest) := by
  simp [selectFromList, selectFromNode]

/-- C5: on empty (falsy) input the service returns 0 and logs exactly the
one error message; on every non-empty input it returns a value with an
empty log trace, so no logging call happens on the non-empty path. -/
theorem C5_empty_logging (svc : HtmlLengthService)
    (sanitize : List Char → List Char) (parse : List Char → Node)
    (s : List Char) :
    svc.computeHtmlLengthInWords sanitize parse [] = some (0, [emptyInputMessage])
    ∧ (s ≠ [] → ∃ w, svc.computeHtmlLengthInWords sanitize parse s
        = some (w, [])) :=
  ⟨(computeHtmlLengthInWords_total svc sanitize parse []).1 rfl,
   (computeHtmlLengthInWords_total svc sanitize parse s).2⟩

/-- Witness for C5 at a concrete non-empty input. -/
theorem C5_empty_logging_witness :
    (("x").data ≠ [])
    ∧ ∃ w, HtmlLengthService.new.computeHtmlLengthInWords id
        (fun _ => Node.element ("body").data []) ("x").data = some (w, []) :=
  ⟨by decide,
   (C5_empty_logging HtmlLengthService.new id
     (fun _ => Node.element ("body").data []) (("x").data)).2 (by decide)⟩

/-- C8: the membership guards of lines 70 and 73 run over the very tables
the helpers of lines 88 and 95 look up, so a guarded helper call never
reaches the missed-lookup (thrown `TypeError`) branch, and
`computeHtmlLengthInWords` never aborts, whatever the tables hold. -/
theorem C8_guarded_lookup_success (svc : HtmlLengthService) :
    (∀ node : Node, svc.textTagsWithWeight.any
        (fun item => decide (item.1 = toLower node.tagName)) = true →
      svc.getWeightForTextNodes node ≠ none)
    ∧ (∀ node : Node, svc.nonTextTagsWithWeight.any
        (fun item => decide (item.1 = toLower node.tagName)) = true →
      svc.getWeightForNonTextNodes node ≠ none)
    ∧ (∀ (sanitize : List Char → List Char) (parse : List Char → Node)
        (s : List Char),
      svc.computeHtmlLengthInWords sanitize parse s ≠ none) := by
  refine ⟨?_, ?_, ?_⟩
  · intro node h
    rcases getWeightForTextNodes_isSome svc node h with ⟨w, hw⟩
    simp [hw]
  · intro node h
    rcases getWeightForNonTextNodes_isSome svc node h with ⟨w, hw⟩
    simp [hw]
  · intro sanitize parse s
    by_cases hs : s = []
    · rw [(computeHtmlLengthInWords_total svc sanitize parse s).1 hs]
      simp
    · rcases (computeHtmlLengthInWords_total svc sanitize parse s).2 hs with ⟨w, hw⟩
      simp [hw]

/-- Witness for C8 at concrete nodes and a concrete call. -/
theorem C8_guarded_lookup_success_witness :
    (HtmlLengthService.new.getWeightForTextNodes
        (Node.element ("p").data []) ≠ none)
    ∧ (HtmlLengthService.new.getWeightForNonTextNodes
        (Node.element ("oppia-noninteractive-math").data []) ≠ none)
    ∧ (HtmlLengthService.new.computeHtmlLengthInWords id
        (fun _ => Node.element ("body").data []) ("x").data ≠ none) :=
  ⟨(C8_guarded_lookup_success HtmlLengthService.new).1 _ (by decide),
   (C8_guarded_lookup_success HtmlLengthService.new).2.1 _ (by decide),
   (C8_guarded_lookup_success HtmlLengthService.new).2.2 id _ _⟩

/-- C9: a call returns the service fields unchanged, and a second call on
the post-call state with the same collaborators and input returns the
same result: the computation is deterministic and mutates no service
state. -/
theorem C9_deterministic_stateless (svc : HtmlLengthService)
    (sanitize : List Char → List Char) (parse : List Char → Node)
    (s : List Char) :
    (svc.computeCall sanitize parse s).2 = svc
    ∧ ((svc.computeCall sanitize parse s).2.computeCall sanitize parse s).1
      = (svc.computeCall sanitize parse s).1 :=
  ⟨rfl, rfl⟩

/-- A loop iteration on an `oppia-noninteractive-image` element adds its
fixed table weight 0, whatever the element holds. -/
theorem loopStep_new_image (total : Int) (cs : List Node) :
    HtmlLengthService.new.loopStep (some total)
      (Node.element (("oppia-noninteractive-image").data) cs) = some (total + 0) := rfl

/-- A loop iteration on an `oppia-noninteractive-math` element adds its
fixed table weight 0, whatever the element holds. -/
theorem loopStep_new_math (total : Int) (cs : List Node) :
    HtmlLengthService.new.loopStep (some total)
      (Node.element (("oppia-noninteractive-math").data) cs) = some (total + 0) := rfl

/-- A loop iteration on a `p` element adds the word count of its trimmed,
space-split text content times the table multiplier 1. -/
theorem loopStep_new_p (total : Int) (cs : List Node) :
    HtmlLengthService.new.loopStep (some total) (Node.element (("p").data) cs)
      = some (total + (((jsTrim (textContentOfList cs)).splitOn ' ').length : Int) * 1) := rfl

/-- A loop iteration on a `ul` element adds the word count of its trimmed,
space-split text content times the table multiplier 1. -/
theorem loopStep_new_ul (total : Int) (cs : List Node) :
    HtmlLengthService.new.loopStep (some total) (Node.element (("ul").data) cs)
      = some (total + (((jsTrim (textContentOfList cs)).splitOn ' ').length : Int) * 1) := rfl

/-- If the sanitized document's body holds one element whose tag is not in
the selector group and whose children are text nodes, nothing is
selected, so the call returns 0 with no log whatever the weight tables
hold. -/
theorem compute_unselected_single (svc : HtmlLengthService) (t : List Char)
    (cs : List Node) (sanitize : List Char → List Char) (s : List Char)
    (hm : toLower t ∉ selectorTags) (hcs : ∀ n ∈ cs, n.isText = true)
    (hs : s ≠ []) :
    svc.computeHtmlLengthInWords sanitize
      (fun _ => Node.element ("body").data [Node.element t cs]) s
      = some (0, []) := by
  have e1 := selectFromList_eq_nil selectorTags cs hcs
  have hq : querySelectorAll selectorTags
      (Node.element ("body").data [Node.element t cs]) = [] := by
    show selectFromList selectorTags [Node.element t cs] = []
    rw [selectFromList_cons_element, e1, if_neg hm]
    simp [selectFromList]
  simp only [HtmlLengthService.computeHtmlLengthInWords, if_neg hs]
  rw [hq]
  simp [List.foldl]

/-- C1 (amended): `a` is absent from the query-selector group of line 66,
so an anchor element is never selected and never scored: an input whose
body holds exactly one anchor element (with text-only content) yields 0,
not the character length of the anchor's text. -/
theorem C1_anchor_not_selected (cs : List Node)
    (sanitize : List Char → List Char) (s : List Char)
    (hcs : ∀ n ∈ cs, n.isText = true) (hs : s ≠ []) :
    HtmlLengthService.new.computeHtmlLengthInWords sanitize
      (fun _ => Node.element ("body").data [Node.element ("a").data cs]) s
      = some (0, []) :=
  compute_unselected_single HtmlLengthService.new (("a").data) cs sanitize s
    (by decide) hcs hs

/-- Witness for C1 (amended) at the concrete anchor `<a>hello</a>`. -/
theorem C1_anchor_not_selected_witness :
    (∀ n ∈ [Node.text ("hello").data], n.isText = true)
    ∧ (("<a>hello</a>").data ≠ [])
    ∧ HtmlLengthService.new.computeHtmlLengthInWords id
        (fun _ => Node.element ("body").data
          [Node.element ("a").data [Node.text ("hello").data]])
        (("<a>hello</a>").data) = some (0, []) :=
  ⟨by decide, by decide,
   C1_anchor_not_selected [Node.text ("hello").data] id (("<a>hello</a>").data)
     (by decide) (by decide)⟩

/-- Counterexample to C1 as stated: on a body holding exactly one anchor
whose trimmed text has 5 characters, the service returns 0, not 5. -/
theorem C1_counterexample :
    (jsTrim (Node.textContent
      (Node.element ("a").data [Node.text ("hello").data]))).length = 5
    ∧ HtmlLengthService.new.computeHtmlLengthInWords id
        (fun _ => Node.element ("body").data
          [Node.element ("a").data [Node.text ("hello").data]])
        (("<a>hello</a>").data) = some (0, [])
    ∧ HtmlLengthService.new.computeHtmlLengthInWords id
        (fun _ => Node.element ("body").data
          [Node.element ("a").data [Node.text ("hello").data]])
        (("<a>hello</a>").data) ≠ some (5, []) :=
  ⟨by decide, by decide, by decide⟩

/-- C2 (amended): `collapsible` is in `textTagsWithWeight` (weight 1000)
but absent from the query-selector group of line 66, so a collapsible
block is never selected and contributes nothing: the call returns 0. -/
theorem C2_collapsible_not_selected (cs : List Node)
    (sanitize : List Char → List Char) (s : List Char)
    (hcs : ∀ n ∈ cs, n.isText = true) (hs : s ≠ []) :
    HtmlLengthService.new.computeHtmlLengthInWords sanitize
      (fun _ => Node.element ("body").data
        [Node.element ("collapsible").data cs]) s
      = some (0, []) :=
  compute_unselected_single HtmlLengthService.new (("collapsible").data) cs
    sanitize s (by decide) hcs hs

/-- Witness for C2 (amended) at a concrete two-word collapsible block. -/
theorem C2_collapsible_not_selected_witness :
    (∀ n ∈ [Node.text ("one two").data], n.isText = true)
    ∧ (("<collapsible>one two</collapsible>").data ≠ [])
    ∧ HtmlLengthService.new.computeHtmlLengthInWords id
        (fun _ => Node.element ("body").data
          [Node.element ("collapsible").data [Node.text ("one two").data]])
        (("<collapsible>one two</collapsible>").data) = some (0, []) :=
  ⟨by decide, by decide,
   C2_collapsible_not_selected [Node.text ("one two").data] id
     (("<collapsible>one two</collapsible>").data) (by decide) (by decide)⟩

/-- Counterexample to C2 as stated: on a body holding one collapsible
block with the two-word text content `one two`, the service returns 0,
not 2 × 1000 = 2000. -/
theorem C2_counterexample :
    HtmlLengthService.new.computeHtmlLengthInWords id
      (fun _ => Node.element ("body").data
        [Node.element ("collapsible").data [Node.text ("one two").data]])
      (("<collapsible>one two</collapsible>").data) = some (0, [])
    ∧ HtmlLengthService.new.computeHtmlLengthInWords id
        (fun _ => Node.element ("body").data
          [Node.element ("collapsible").data [Node.text ("one two").data]])
        (("<collapsible>one two</collapsible>").data) ≠ some (2000, []) :=
  ⟨by decide, by decide⟩

/-- C3 (amended): for `<ul><li>one two</li><li>three</li></ul>` only the
`ul` is selected and the `li` text does count toward its word count, but
`textContent` concatenates the two `li` texts with no separator, giving
the text `one twothree`, word count 2: the service returns 2, not 3. -/
theorem C3_ul_li_merged_words :
    Node.textContent (Node.element ("ul").data
      [Node.element ("li").data [Node.text ("one two").data],
       Node.element ("li").data [Node.text ("three").data]])
      = ("one twothree").data
    ∧ HtmlLengthService.new.computeHtmlLengthInWords id
        (fun _ => Node.element ("body").data
          [Node.element ("ul").data
            [Node.element ("li").data [Node.text ("one two").data],
             Node.element ("li").data [Node.text ("three").data]]])
        (("<ul><li>one two</li><li>three</li></ul>").data) = some (2, []) :=
  ⟨by decide, by decide⟩

/-- Counterexample to C3 as stated: on
`<ul><li>one two</li><li>three</li></ul>` the service returns 2, not 3. -/
theorem C3_counterexample :
    HtmlLengthService.new.computeHtmlLengthInWords id
      (fun _ => Node.element ("body").data
        [Node.element ("ul").data
          [Node.element ("li").data [Node.text ("one two").data],
           Node.element ("li").data [Node.text ("three").data]]])
      (("<ul><li>one two</li><li>three</li></ul>").data) = some (2, [])
    ∧ HtmlLengthService.new.computeHtmlLengthInWords id
        (fun _ => Node.element ("body").data
          [Node.element ("ul").data
            [Node.element ("li").data [Node.text ("one two").data],
             Node.element ("li").data [Node.text ("three").data]]])
        (("<ul><li>one two</li><li>three</li></ul>").data) ≠ some (3, []) :=
  ⟨by decide, by decide⟩

/-- C6: a body holding one image embed and one math embed (text-only
content inside them, no other content) scores their fixed table weights:
0 + 0 = 0, regardless of their content. -/
theorem C6_nontext_fixed_zero (cs1 cs2 : List Node)
    (sanitize : List Char → List Char) (s : List Char)
    (h1 : ∀ n ∈ cs1, n.isText = true) (h2 : ∀ n ∈ cs2, n.isText = true)
    (hs : s ≠ []) :
    HtmlLengthService.new.computeHtmlLengthInWords sanitize
      (fun _ => Node.element ("body").data
        [Node.element ("oppia-noninteractive-image").data cs1,
         Node.element ("oppia-noninteractive-math").data cs2]) s
      = some (0, []) := by
  have e1 := selectFromList_eq_nil selectorTags cs1 h1
  have e2 := selectFromList_eq_nil selectorTags cs2 h2
  have m1 : toLower (("oppia-noninteractive-image").data) ∈ selectorTags := by decide
  have m2 : toLower (("oppia-noninteractive-math").data) ∈ selectorTags := by decide
  have hq : querySelectorAll selectorTags
      (Node.element ("body").data
        [Node.element ("oppia-noninteractive-image").data cs1,
         Node.element ("oppia-noninteractive-math").data cs2])
      = [Node.element ("oppia-noninteractive-image").data cs1,
         Node.element ("oppia-noninteractive-math").data cs2] := by
    show selectFromList selectorTags _ = _
    rw [selectFromList_cons_element, selectFromList_cons_element,
      e1, e2, if_pos m1, if_pos m2]
    simp [selectFromList]
  simp only [HtmlLengthService.computeHtmlLengthInWords, if_neg hs]
  rw [hq, List.foldl_cons, loopStep_new_image, List.foldl_cons,
    loopStep_new_math, List.foldl_nil]
  norm_num

/-- Witness for C6 at concrete embed elements. -/
theorem C6_nontext_fixed_zero_witness :
    (∀ n ∈ [Node.text ("img").data], n.isText = true)
    ∧ (∀ n ∈ [Node.text ("math").data], n.isText = true)
    ∧ (("<oppia-noninteractive-image></oppia-noninteractive-image>").data ≠ [])
    ∧ HtmlLengthService.new.computeHtmlLengthInWords id
        (fun _ => Node.element ("body").data
          [Node.element ("oppia-noninteractive-image").data
            [Node.text ("img").data],
           Node.element ("oppia-noninteractive-math").data
            [Node.text ("math").data]])
        (("<oppia-noninteractive-image></oppia-noninteractive-image>").data)
        = some (0, []) :=
  ⟨by decide, by decide, by decide,
   C6_nontext_fixed_zero [Node.text ("img").data] [Node.text ("math").data] id
     (("<oppia-noninteractive-image></oppia-noninteractive-image>").data)
     (by decide) (by decide) (by decide)⟩

/-- `dropWhile` over a list all of whose elements satisfy the predicate
drops everything. -/
theorem dropWhile_eq_nil_of_all {α : Type} (p : α → Bool) (l : List α)
    (h : ∀ x ∈ l, p x = true) : l.dropWhile p = [] := by
  induction l with
  | nil => rfl
  | cons hd tl ih =>
      rw [List.dropWhile_cons_of_pos (h hd (List.mem_cons_self hd tl))]
      exact ih fun x hx => h x (List.mem_cons_of_mem _ hx)

/-- Trimming a whitespace-only string yields the empty string. -/
theorem jsTrim_of_all_whitespace (l : List Char)
    (h : ∀ c ∈ l, c.isWhitespace = true) : jsTrim l = [] := by
  unfold jsTrim
  rw [dropWhile_eq_nil_of_all _ _ h]
  rfl

/-- C10: a selected non-anchor text element with empty or whitespace-only
text content scores its table multiplier times 1, not 0: trimming gives
the empty string, and splitting the empty string on a single space yields
one (empty) token, so the word count of any such element is 1. -/
theorem C10_whitespace_word_count_one (svc : HtmlLengthService)
    (t : List Char) (cs : List Node) (entry : List Char × Int)
    (hna : toLower t ≠ ("a").data)
    (hws : ∀ c ∈ Node.textContent (Node.element t cs), c.isWhitespace = true)
    (hfind : svc.textTagsWithWeight.find? (fun x => decide (x.1 = toLower t))
      = some entry) :
    svc.getWeightForTextNodes (Node.element t cs) = some (1 * entry.2) := by
  have htrim : jsTrim (Node.textContent (Node.element t cs)) = [] :=
    jsTrim_of_all_whitespace _ hws
  unfold HtmlLengthService.getWeightForTextNodes
  simp only [Node.tagName, htrim, hfind, if_neg hna]
  norm_num

/-- Witness for C10 at `<p></p>` with the default table. -/
theorem C10_whitespace_word_count_one_witness :
    (toLower (("p").data) ≠ ("a").data)
    ∧ (∀ c ∈ Node.textContent (Node.element ("p").data []),
        c.isWhitespace = true)
    ∧ (HtmlLengthService.new.textTagsWithWeight.find?
        (fun x => decide (x.1 = toLower (("p").data)))
        = some ((("p").data), 1))
    ∧ HtmlLengthService.new.getWeightForTextNodes
        (Node.element ("p").data []) = some (1 * ((("p").data), (1 : Int)).2) :=
  ⟨by decide, by decide, by decide,
   C10_whitespace_word_count_one HtmlLengthService.new (("p").data) []
     ((("p").data), 1) (by decide) (by decide) (by decide)⟩

/-- Every weight in the default text-tag table is non-negative. -/
theorem textTags_new_nonneg :
    ∀ x ∈ HtmlLengthService.new.textTagsWithWeight, 0 ≤ x.2 := by decide

/-- Every weight in the default non-text-tag table is non-negative. -/
theorem nonTextTags_new_nonneg :
    ∀ x ∈ HtmlLengthService.new.nonTextTagsWithWeight, 0 ≤ x.2 := by decide

/-- With the default table, `getWeightForTextNodes` returns a
non-negative value: a character length, or a word count times a
non-negative multiplier. -/
theorem getWeightForTextNodes_nonneg_new (node : Node) (w : Int)
    (h : HtmlLengthService.new.getWeightForTextNodes node = some w) :
    0 ≤ w := by
  unfold HtmlLengthService.getWeightForTextNodes at h
  by_cases ha : toLower node.tagName = ("a").data
  · simp only [if_pos ha, Option.some.injEq] at h
    exact h ▸ Int.natCast_nonneg _
  · simp only [if_neg ha] at h
    cases hfind : HtmlLengthService.new.textTagsWithWeight.find?
        (fun x => decide (x.1 = toLower node.tagName)) with
    | none => rw [hfind] at h; cases h
    | some x =>
        rw [hfind] at h
        simp only [Option.some.injEq] at h
        have hx := textTags_new_nonneg x (List.mem_of_find?_eq_some hfind)
        exact h ▸ mul_nonneg (Int.natCast_nonneg _) hx

/-- With the default table, `getWeightForNonTextNodes` returns a
non-negative value. -/
theorem getWeightForNonTextNodes_nonneg_new (node : Node) (w : Int)
    (h : HtmlLengthService.new.getWeightForNonTextNodes node = some w) :
    0 ≤ w := by
  unfold HtmlLengthService.getWeightForNonTextNodes at h
  cases hfind : HtmlLengthService.new.nonTextTagsWithWeight.find?
      (fun x => decide (x.1 = toLower node.tagName)) with
  | none => simp only [hfind] at h; cases h
  | some x =>
      simp only [hfind, Option.some.injEq] at h
      have hx := nonTextTags_new_nonneg x (List.mem_of_find?_eq_some hfind)
      exact h ▸ hx

/-- With the default table, a loop iteration keeps the accumulator
non-negative. -/
theorem loopStep_nonneg_new (total : Int) (tag : Node) (v : Int)
    (h0 : 0 ≤ total)
    (h : HtmlLengthService.new.loopStep (some total) tag = some v) :
    0 ≤ v := by
  unfold HtmlLengthService.loopStep at h
  by_cases h1 : HtmlLengthService.new.textTagsWithWeight.any
      (fun item => decide (item.1 = toLower tag.tagName)) = true
  · cases hg1 : HtmlLengthService.new.getWeightForTextNodes tag with
    | none => simp [h1, hg1] at h
    | some w1 =>
        have hw1 := getWeightForTextNodes_nonneg_new tag w1 hg1
        by_cases h2 : HtmlLengthService.new.nonTextTagsWithWeight.any
            (fun item => decide (item.1 = toLower tag.tagName)) = true
        · cases hg2 : HtmlLengthService.new.getWeightForNonTextNodes tag with
          | none => simp [h1, h2, hg1, hg2] at h
          | some w2 =>
              have hw2 := getWeightForNonTextNodes_nonneg_new tag w2 hg2
              simp [h1, h2, hg1, hg2] at h
              omega
        · simp [h1, h2, hg1] at h
          omega
  · by_cases h2 : HtmlLengthService.new.nonTextTagsWithWeight.any
        (fun item => decide (item.1 = toLower tag.tagName)) = true
    · cases hg2 : HtmlLengthService.new.getWeightForNonTextNodes tag with
      | none => simp [h1, h2, hg2] at h
      | some w2 =>
          have hw2 := getWeightForNonTextNodes_nonneg_new tag w2 hg2
          simp [h1, h2, hg2] at h
          omega
    · simp [h1, h2] at h
      omega

/-- With the default table, the whole loop keeps the accumulator
non-negative. -/
theorem foldl_loopStep_nonneg_new (l : List Node) :
    ∀ total v : Int, 0 ≤ total →
      l.foldl HtmlLengthService.new.loopStep (some total) = some v → 0 ≤ v := by
  induction l with
  | nil =>
      intro total v h0 h
      simp only [List.foldl_nil, Option.some.injEq] at h
      omega
  | cons hd tl ih =>
      intro total v h0 h
      rw [List.foldl_cons] at h
      cases hstep : HtmlLengthService.new.loopStep (some total) hd with
      | none =>
          rw [hstep, foldl_loopStep_none] at h
          cases h
      | some t2 =>
          rw [hstep] at h
          exact ih t2 v (loopStep_nonneg_new total hd t2 h0 hstep) h

/-- C7: every value `computeHtmlLengthInWords` returns is a non-negative
integer: the empty-input branch returns 0, and otherwise the sum starts
at 0 and every element's contribution is non-negative (a character
length, a fixed weight from the table, or a word count times a table
multiplier, all non-negative integers; no rounding happens anywhere). -/
theorem C7_result_nonneg (sanitize : List Char → List Char)
    (parse : List Char → Node) (s : List Char) (w : Int)
    (logs : List (List Char))
    (h : HtmlLengthService.new.computeHtmlLengthInWords sanitize parse s
      = some (w, logs)) :
    0 ≤ w := by
  by_cases hs : s = []
  · rw [(computeHtmlLengthInWords_total HtmlLengthService.new sanitize parse s).1 hs]
      at h
    simp only [Option.some.injEq, Prod.mk.injEq] at h
    omega
  · simp only [HtmlLengthService.computeHtmlLengthInWords, if_neg hs] at h
    cases hfold : (querySelectorAll selectorTags (parse (sanitize s))).foldl
        HtmlLengthService.new.loopStep (some 0) with
    | none => rw [hfold] at h; cases h
    | some tw =>
        rw [hfold] at h
        simp only [Option.some.injEq, Prod.mk.injEq] at h
        have := foldl_loopStep_nonneg_new
          (querySelectorAll selectorTags (parse (sanitize s))) 0 tw le_rfl hfold
        omega

/-- Witness for C7 at the empty input. -/
theorem C7_result_nonneg_witness :
    HtmlLengthService.new.computeHtmlLengthInWords id
      (fun _ => Node.element ("body").data []) []
      = some (0, [emptyInputMessage])
    ∧ (0 : Int) ≤ 0 :=
  ⟨by decide,
   C7_result_nonneg id (fun _ => Node.element ("body").data []) [] 0
     [emptyInputMessage] (by decide)⟩

/-- A space-intercalation starts with its first word. -/
theorem intercalate_space_head (w : List Char) (rest : List (List Char)) :
    ∃ t2, List.intercalate [' '] (w :: rest) = w ++ t2 := by
  cases rest with
  | nil => exact ⟨[], by simp [List.intercalate]⟩
  | cons b l => exact ⟨' ' :: List.intercalate [' '] (b :: l), by simp [List.intercalate]⟩

/-- A space-intercalation of non-empty whitespace-free words has no
leading whitespace to drop. -/
theorem dropWhile_intercalate_words (ws : List (List Char)) (hne : ws ≠ [])
    (hw : ∀ w ∈ ws, w ≠ [] ∧ ∀ c ∈ w, c.isWhitespace = false) :
    (List.intercalate [' '] ws).dropWhile Char.isWhitespace
      = List.intercalate [' '] ws := by
  cases ws with
  | nil => exact absurd rfl hne
  | cons w rest =>
      obtain ⟨t2, ht⟩ := intercalate_space_head w rest
      obtain ⟨hwne, hwc⟩ := hw w (List.mem_cons_self w rest)
      cases w with
      | nil => exact absurd rfl hwne
      | cons c w2 =>
          rw [ht, List.cons_append, List.dropWhile_cons_of_neg]
          simp [hwc c (List.mem_cons_self c w2)]

/-- The reversal of a space-intercalation of non-empty whitespace-free
words starts with a non-whitespace character (the last character of the
last word). -/
theorem reverse_intercalate_words_head (ws : List (List Char)) (hne : ws ≠ [])
    (hw : ∀ w ∈ ws, w ≠ [] ∧ ∀ c ∈ w, c.isWhitespace = false) :
    ∃ c t, (List.intercalate [' '] ws).reverse = c :: t
      ∧ c.isWhitespace = false := by
  induction ws with
  | nil => exact absurd rfl hne
  | cons w rest ih =>
      cases rest with
      | nil =>
          obtain ⟨hwne, hwc⟩ := hw w (List.mem_cons_self w [])
          have h1 : List.intercalate [' '] [w] = w := by simp [List.intercalate]
          rw [h1]
          cases hr : w.reverse with
          | nil => rw [List.reverse_eq_nil_iff] at hr; exact absurd hr hwne
          | cons c t =>
              have hcw : c ∈ w := by
                have : c ∈ w.reverse := by rw [hr]; exact List.mem_cons_self c t
                simpa using this
              exact ⟨c, t, rfl, hwc c hcw⟩
      | cons b l =>
          have hstep : List.intercalate [' '] (w :: b :: l)
              = w ++ ' ' :: List.intercalate [' '] (b :: l) := by
            simp [List.intercalate]
          obtain ⟨c, t, hct, hc⟩ := ih (by simp)
            (fun x hx => hw x (List.mem_cons_of_mem _ hx))
          refine ⟨c, t ++ ' ' :: w.reverse, ?_, hc⟩
          rw [hstep, List.reverse_append, List.reverse_cons, hct]
          simp

/-- Trimming is the identity on a space-intercalation of non-empty
whitespace-free words. -/
theorem jsTrim_intercalate_words (ws : List (List Char)) (hne : ws ≠ [])
    (hw : ∀ w ∈ ws, w ≠ [] ∧ ∀ c ∈ w, c.isWhitespace = false) :
    jsTrim (List.intercalate [' '] ws) = List.intercalate [' '] ws := by
  unfold jsTrim
  rw [dropWhile_intercalate_words ws hne hw]
  obtain ⟨c, t, hct, hc⟩ := reverse_intercalate_words_head ws hne hw
  rw [hct, List.dropWhile_cons_of_neg (by simp [hc]), ← hct,
    List.reverse_reverse]

/-- Splitting a space-intercalation of non-empty whitespace-free words on
single spaces recovers the words. -/
theorem splitOn_intercalate_words (ws : List (List Char)) (hne : ws ≠ [])
    (hw : ∀ w ∈ ws, w ≠ [] ∧ ∀ c ∈ w, c.isWhitespace = false) :
    (List.intercalate [' '] ws).splitOn ' ' = ws :=
  List.splitOn_intercalate ws ' '
    (fun l hl hmem => absurd ((hw l hl).2 ' ' hmem) (by decide)) hne

/-- C4: a body holding one `p` element whose text content is exactly the
words `ws` separated by single spaces (no nested text tags, no other
content) scores word count times the table multiplier 1: it returns
`ws.length`. -/
theorem C4_p_word_count (ws : List (List Char))
    (sanitize : List Char → List Char) (s : List Char)
    (hne : ws ≠ [])
    (hw : ∀ w ∈ ws, w ≠ [] ∧ ∀ c ∈ w, c.isWhitespace = false)
    (hs : s ≠ []) :
    HtmlLengthService.new.computeHtmlLengthInWords sanitize
      (fun _ => Node.element ("body").data
        [Node.element ("p").data [Node.text (List.intercalate [' '] ws)]]) s
      = some ((ws.length : Int), []) := by
  have m : toLower (("p").data) ∈ selectorTags := by decide
  have hq : querySelectorAll selectorTags
      (Node.element ("body").data
        [Node.element ("p").data [Node.text (List.intercalate [' '] ws)]])
      = [Node.element ("p").data [Node.text (List.intercalate [' '] ws)]] := by
    show selectFromList selectorTags _ = _
    rw [selectFromList_cons_element, if_pos m]
    simp [selectFromList, selectFromNode]
  simp only [HtmlLengthService.computeHtmlLengthInWords, if_neg hs]
  rw [hq, List.foldl_cons, loopStep_new_p, List.foldl_nil]
  have htc : textContentOfList [Node.text (List.intercalate [' '] ws)]
      = List.intercalate [' '] ws := by
    simp [textContentOfList, Node.textContent]
  rw [htc, jsTrim_intercalate_words ws hne hw,
    splitOn_intercalate_words ws hne hw]
  norm_num

/-- Witness for C4 at `<p>one two</p>`. -/
theorem C4_p_word_count_witness :
    ([("one").data, ("two").data] ≠ [])
    ∧ (∀ w ∈ [("one").data, ("two").data],
        w ≠ [] ∧ ∀ c ∈ w, c.isWhitespace = false)
    ∧ (("<p>one two</p>").data ≠ [])
    ∧ HtmlLengthService.new.computeHtmlLengthInWords id
        (fun _ => Node.element ("body").data
          [Node.element ("p").data
            [Node.text (List.intercalate [' '] [("one").data, ("two").data])]])
        (("<p>one two</p>").data) = some ((2 : Int), []) :=
  ⟨by decide, by decide, by decide,
   C4_p_word_count [("one").data, ("two").data] id (("<p>one two</p>").data)
     (by decide) (by decide) (by decide)⟩
